import Mathlib

/-!
# Verification of the winescope crawler core

Shallow embedding of the crawl-and-parse pipeline of the winescope
repository: the shell-escaping and command construction of
`CurlCrawlerAdapter`, the outcome classification of its `fetch`, the
value objects (`Score`, `Vintage`, `WineName`), the entities (`Wine`,
`Rating`, `Price`), the extraction logic of `WineSearcherParser`, and
the URL normalisation of `SearchWineUseCase`.

Modelling conventions:
* JavaScript strings are Lean `String`s; the JS string operations used
  by the code (`trim`, `toLowerCase`, `includes`, regex matching) are
  implemented explicitly over `String.data` (`List Char`).
* JS numbers produced by `parseFloat` are modelled as exact rationals
  (`ℚ`); `parseInt` of a digit run as `Nat`/`Int`.
* `new Date()` values (the current year, timestamps) are not in the
  embedding: functions that read the clock take the relevant value
  (`currentYear`) as an explicit parameter, and timestamp fields that
  no claim touches are omitted from the records.
* A JS function that can `throw` becomes `Except String α`, the thrown
  `Error`'s message being the `String`.
-/

namespace WineScope

/-! ## JavaScript string primitives -/

/-- The whitespace class of JavaScript (`\s` and `trim`): ASCII
whitespace plus the Unicode space separators used by the regexes in
the source. -/
def isJsWs (c : Char) : Bool :=
  c = ' ' || c = '\t' || c = '\n' || c = '\r' ||
  c.val = 11 || c.val = 12 || c.val = 160 || c.val = 0x1680 ||
  (0x2000 ≤ c.val && c.val ≤ 0x200a) || c.val = 0x2028 || c.val = 0x2029 ||
  c.val = 0x202f || c.val = 0x205f || c.val = 0x3000 || c.val = 0xfeff

/-- `String.prototype.trim` on the character list. -/
def trimL (l : List Char) : List Char :=
  ((l.dropWhile isJsWs).reverse.dropWhile isJsWs).reverse

/-- `String.prototype.trim`. -/
def jsTrim (s : String) : String :=
  ⟨trimL s.data⟩

/-- `String.prototype.toLowerCase`, on the ASCII range the inputs of
this system use. -/
def jsToLower (s : String) : String :=
  ⟨s.data.map Char.toLower⟩

/-- Does `pat` occur at the head of `l`? -/
def startsWithL (l pat : List Char) : Bool :=
  match l, pat with
  | _, [] => true
  | [], _ :: _ => false
  | a :: l', b :: pat' => a = b && startsWithL l' pat'

/-- `String.prototype.includes` on character lists: does `pat` occur
as a contiguous run inside `l`? -/
def containsSubL (l pat : List Char) : Bool :=
  match l with
  | [] => pat.isEmpty
  | a :: rest => startsWithL (a :: rest) pat || containsSubL rest pat

/-- `String.prototype.includes`. -/
def containsSub (s pat : String) : Bool :=
  containsSubL s.data pat.data

/-- Numeric value of a digit run (`parseInt` on a `\d+` match). -/
def natOfDigits (l : List Char) : Nat :=
  l.foldl (fun n c => 10 * n + (c.toNat - 48)) 0

/-- First match of the regex `\d+`, as the matched digit run. -/
def firstDigitRun : List Char → Option (List Char)
  | [] => none
  | a :: rest =>
      if a.isDigit then some ((a :: rest).takeWhile Char.isDigit)
      else firstDigitRun rest

/-- First match of the regex `\d+(\.\d+)?`, as the matched characters:
a maximal digit run, extended by `.` and a further digit run when the
dot is immediately followed by a digit. -/
def firstNumToken : List Char → Option (List Char)
  | [] => none
  | a :: rest =>
      if a.isDigit then
        let ds := (a :: rest).takeWhile Char.isDigit
        match (a :: rest).dropWhile Char.isDigit with
        | '.' :: r2 =>
            match r2 with
            | b :: _ =>
                if b.isDigit then some (ds ++ '.' :: r2.takeWhile Char.isDigit)
                else some ds
            | [] => some ds
        | _ => some ds
      else firstNumToken rest

/-- `parseFloat` of a `\d+(\.\d+)?` match, as an exact rational. -/
def ratOfToken (t : List Char) : ℚ :=
  let ip := t.takeWhile Char.isDigit
  match t.dropWhile Char.isDigit with
  | '.' :: fr => (natOfDigits ip : ℚ) + (natOfDigits fr : ℚ) / (10 : ℚ) ^ fr.length
  | _ => (natOfDigits ip : ℚ)

/-! ## Shell escaping (`CurlCrawlerAdapter.escapeShellArg`) -/

/-- The backtick character. -/
def backtick : Char := Char.ofNat 96

/-- One global `String.prototype.replace(/c/g, "\\c")` pass: every
occurrence of `c` is replaced by a backslash followed by `c` (for
`c = '\\'` this is `replace(/\\/g, '\\\\')`). -/
def rep (c : Char) : List Char → List Char
  | [] => []
  | a :: rest => if a = c then '\\' :: c :: rep c rest else a :: rep c rest

/-- The nine successive global replacements of
`CurlCrawlerAdapter.escapeShellArg`, applied in source order —
backslash first, then double quote, dollar, backtick, semicolon,
ampersand, pipe, greater-than, less-than. -/
def escapeData (l : List Char) : List Char :=
  rep '<' (rep '>' (rep '|' (rep '&' (rep ';' (rep backtick
      (rep '$' (rep '"' (rep '\\' l))))))))

/-- `CurlCrawlerAdapter.escapeShellArg`. -/
def escapeShellArg (s : String) : String :=
  ⟨escapeData s.data⟩

/-- The nine shell metacharacters the adapter escapes. -/
def isMeta (c : Char) : Bool :=
  c = '\\' || c = '"' || c = '$' || c = backtick || c = ';' ||
  c = '&' || c = '|' || c = '>' || c = '<'

/-- Per-character escaping: a metacharacter becomes backslash + itself,
anything else is unchanged. -/
def escChar (c : Char) : List Char :=
  if isMeta c then ['\\', c] else [c]

/-- Left-to-right reading of a string under shell backslash-escaping:
`true` iff every metacharacter occurrence is either a backslash that
escapes the following character or is itself escaped by a preceding
backslash. -/
def noUnescaped : List Char → Bool
  | [] => true
  | [a] => !isMeta a
  | a :: b :: rest =>
      if a = '\\' then noUnescaped rest
      else !isMeta a && noUnescaped (b :: rest)

/-- Inverse reading: drop one escaping backslash before each escaped
character. -/
def unescapeShell : List Char → List Char
  | [] => []
  | [a] => [a]
  | a :: b :: rest =>
      if a = '\\' then b :: unescapeShell rest
      else a :: unescapeShell (b :: rest)

/-- Spec-side escaping, written from the spec's description: every
character is escaped independently, a metacharacter to backslash +
itself and anything else to itself. To be compared with the staged
nine-pass `escapeData` of the source. -/
def escSpec : List Char → List Char
  | [] => []
  | a :: l => escChar a ++ escSpec l

/-! ## Command construction (`CurlCrawlerAdapter.buildCurlCommand`) -/

/-- `CurlCrawlerAdapter.buildCurlCommand`: binary name derived from the
browser profile, `-s -L`, the escaped URL (bare, no quotes),
`--max-time ⌈timeout/1000⌉`, one `-H "key: value"` per header with key
and value escaped, and an optional `-A "ua"` with the user agent
escaped. `headers` is the entry list of the options' header object. -/
def buildCurlCommand (url browser : String) (timeout : Nat)
    (headers : List (String × String)) (userAgent : Option String) : String :=
  let curlBinary := "curl_" ++ browser
  let escapedUrl := escapeShellArg url
  let command := curlBinary ++ " -s -L " ++ escapedUrl
  let command := command ++ " --max-time " ++ toString ((timeout + 999) / 1000)
  let command := headers.foldl
    (fun cmd kv =>
      cmd ++ " -H \"" ++ escapeShellArg kv.1 ++ ": " ++ escapeShellArg kv.2 ++ "\"")
    command
  match userAgent with
  | some ua => command ++ " -A \"" ++ escapeShellArg ua ++ "\""
  | none => command

/-! ## Error taxonomy and fetch outcome (`crawler.errors`, `fetch`) -/

/-- The crawler error taxonomy (`NetworkError`, `TimeoutError`,
`ParsingError` of `crawler.errors.ts`), each carrying its message and
url, the timeout error also the requested `timeoutMs`. -/
inductive CrawlError where
  | networkError (message url : String)
  | timeoutError (message url : String) (timeoutMs : Nat)
  | parsingError (message url : String)
  deriving DecidableEq, Repr

/-- Result of the `execAsync(curlCommand)` call: either the process
succeeded with the given stdout/stderr, or it failed with an `Error`
carrying a message and an optional `code` property. -/
inductive ExecResult where
  | ok (stdout stderr : String)
  | err (message : String) (code : Option String)
  deriving DecidableEq, Repr

/-- `options.timeout || 5000`: absent — and, by JS truthiness, zero —
falls back to the default. -/
def resolveTimeout : Option Nat → Nat
  | none => 5000
  | some t => if t = 0 then 5000 else t

/-- The outcome classification of `CurlCrawlerAdapter.fetch`, given the
url, the resolved timeout and the process result: empty or
whitespace-only stdout is a `NetworkError`; a process error whose
message contains `ETIMEDOUT` or `timeout`, or whose `code` is
`ETIMEDOUT`, is a `TimeoutError` carrying url and timeout; any other
process error is a `NetworkError` carrying url and the message;
non-empty stdout is returned unchanged. -/
def fetchClassify (url : String) (timeout : Nat) (r : ExecResult) :
    Except CrawlError String :=
  match r with
  | .ok stdout _ =>
      if (jsTrim stdout).data.length = 0 then
        .error (.networkError ("Empty response from URL: " ++ url) url)
      else
        .ok stdout
  | .err msg code =>
      if containsSub msg "ETIMEDOUT" || containsSub msg "timeout" ||
          code = some "ETIMEDOUT" then
        .error (.timeoutError
          ("Request to " ++ url ++ " timed out after " ++ toString timeout ++ "ms")
          url timeout)
      else
        .error (.networkError ("Failed to fetch URL " ++ url ++ ": " ++ msg) url)

/-! ## Value objects -/

/-- `Score` value object: a rating score. -/
structure Score where
  value : ℚ
  deriving DecidableEq, Repr

/-- `Score.create`: rejects values outside `[0, 100]`. (The JS
`typeof`/`NaN` guard has no counterpart on exact rationals.) -/
def Score.create (value : ℚ) : Except String Score :=
  if value < 0 || 100 < value then
    .error ("Score must be between 0 and 100, got: " ++ toString value)
  else
    .ok ⟨value⟩

/-- `Vintage` value object: a vintage year. -/
structure Vintage where
  value : Int
  deriving DecidableEq, Repr

/-- `Vintage.create`: accepts integer years between 1900 and
`currentYear + 5`. The current year, read from the clock in the
source, is an explicit parameter here; the JS integrality check is
inherent in the `Int` type. -/
def Vintage.create (currentYear : Int) (value : Int) : Except String Vintage :=
  if value < 1900 || currentYear + 5 < value then
    .error ("Vintage must be between 1900 and " ++ toString (currentYear + 5) ++
      ", got: " ++ toString value)
  else
    .ok ⟨value⟩

/-- `WineName` value object: a wine name. -/
structure WineName where
  value : String
  deriving DecidableEq, Repr

/-- `WineName.create`: trims its input, rejects an empty result and a
result longer than 100 characters, and stores the trimmed string. The
JS `typeof` guard has no counterpart on a `String`-typed argument. -/
def WineName.create (value : String) : Except String WineName :=
  let trimmed := jsTrim value
  if trimmed.data.length = 0 then
    .error "Wine name cannot be empty"
  else if 100 < trimmed.data.length then
    .error ("Wine name cannot exceed 100 characters, got: " ++
      toString trimmed.data.length)
  else
    .ok ⟨trimmed⟩

/-! ## Entities -/

/-- `Wine` entity (aggregate root). -/
structure Wine where
  name : WineName
  region : String
  winery : String
  variety : String
  vintage : Vintage
  deriving DecidableEq, Repr

/-- The plain-object projection returned by `Wine.toJSON`. -/
structure WineJson where
  name : String
  region : String
  winery : String
  variety : String
  vintage : Int
  deriving DecidableEq, Repr

/-- `new Wine(...)` with its `validate()`: region, winery and variety
must be non-empty after trimming and at most 100 characters after
trimming. -/
def Wine.create (name : WineName) (region winery variety : String)
    (vintage : Vintage) : Except String Wine :=
  if (jsTrim region).data.length = 0 then
    .error "Wine region is required"
  else if 100 < (jsTrim region).data.length then
    .error ("Wine region too long (max 100 chars): " ++ region)
  else if (jsTrim winery).data.length = 0 then
    .error "Winery is required"
  else if 100 < (jsTrim winery).data.length then
    .error ("Winery name too long (max 100 chars): " ++ winery)
  else if (jsTrim variety).data.length = 0 then
    .error "Wine variety is required"
  else if 100 < (jsTrim variety).data.length then
    .error ("Wine variety too long (max 100 chars): " ++ variety)
  else
    .ok ⟨name, region, winery, variety, vintage⟩

/-- `Wine.toJSON`. -/
def Wine.toJSON (w : Wine) : WineJson :=
  ⟨w.name.value, w.region, w.winery, w.variety, w.vintage.value⟩

/-- `Rating` entity. -/
structure Rating where
  source : String
  score : Score
  critic : Option String
  reviewCount : Int
  deriving DecidableEq, Repr

/-- `new Rating(...)` with its `validate()`: non-empty trimmed source
of at most 100 trimmed characters, non-negative review count, and a
critic that is never the empty-after-trim string (null is the absence
sentinel). -/
def Rating.create (source : String) (score : Score) (critic : Option String)
    (reviewCount : Int) : Except String Rating :=
  if (jsTrim source).data.length = 0 then
    .error "Rating source is required"
  else if 100 < (jsTrim source).data.length then
    .error ("Rating source too long (max 100 chars): " ++ source)
  else if reviewCount < 0 then
    .error ("Review count cannot be negative: " ++ toString reviewCount)
  else if (match critic with
           | some c => (jsTrim c).data.isEmpty
           | none => false) = true then
    .error "Critic name cannot be empty string (use null instead)"
  else
    .ok ⟨source, score, critic, reviewCount⟩

/-- `Rating.isRobertParker`: the source or the critic (null treated as
the empty string) contains, case-insensitively, one of the keywords
`parker`, `rp`, `robert parker`. -/
def Rating.isRobertParker (r : Rating) : Bool :=
  let critLower := jsToLower (r.critic.getD "")
  let sourceLower := jsToLower r.source
  ["parker", "rp", "robert parker"].any
    (fun k => containsSub critLower k || containsSub sourceLower k)

/-- `Price` entity. The `updatedAt : Date` field of the source, which
no claim touches and whose validity check is about the clock type, is
outside the embedding. -/
structure Price where
  average : ℚ
  currency : String
  priceRange : Option String
  deriving DecidableEq, Repr

/-- `new Price(...)` with the `validate()` checks on the embedded
fields: non-negative average and a currency of 1 to 10 characters. -/
def Price.create (average : ℚ) (currency : String)
    (priceRange : Option String) : Except String Price :=
  if average < 0 then
    .error ("Average price cannot be negative: " ++ toString average)
  else if currency.data.length = 0 then
    .error "Currency is required"
  else if 10 < currency.data.length then
    .error ("Currency code too long (max 10 chars): " ++ currency)
  else
    .ok ⟨average, currency, priceRange⟩

/-! ## Parser (`WineSearcherParser`)

The cheerio layer is abstracted: `extractText($, selector, ctx?)`
returns the trimmed text of the first matching element, or null when
empty/absent. A document is therefore modelled by the results of
those `extractText` calls — an `Option String` per logical field, a
list of `RatingItem`s for the rating nodes, and a `PriceParts` for the
price fields. All logic downstream of `extractText` is embedded
faithfully. -/

/-- The four `extractText` results for one rating item node. -/
structure RatingItem where
  source : Option String
  scoreText : Option String
  critic : Option String
  reviewCountText : Option String
  deriving DecidableEq, Repr

/-- The `extractText` results for the price fields. (The `updatedAt`
text feeds only the omitted timestamp field.) -/
structure PriceParts where
  averageText : Option String
  currencyText : Option String
  priceRangeText : Option String
  deriving DecidableEq, Repr

/-- The `extractText` results of a whole document. -/
structure Doc where
  nameText : Option String
  vintageText : Option String
  regionText : Option String
  wineryText : Option String
  varietyText : Option String
  ratingItems : List RatingItem
  priceParts : PriceParts
  deriving DecidableEq, Repr

/-- JS `\w` word character: ASCII letter, digit or underscore. -/
def isWordChar (c : Char) : Bool :=
  c.isAlpha || c.isDigit || c = '_'

/-- Match of `(19|20)\d{2}\b` at the head of the list: `19` or `20`,
two further digits, and no word character immediately after. Returns
the matched year. -/
def yearAt : List Char → Option Nat
  | a :: b :: c :: d :: rest =>
      if ((a = '1' && b = '9') || (a = '2' && b = '0')) &&
          c.isDigit && d.isDigit &&
          (match rest with | [] => true | e :: _ => !isWordChar e) then
        some (natOfDigits [a, b, c, d])
      else none
  | _ => none

/-- First match of `\b(19|20)\d{2}\b`, scanning left to right;
`prev` is the character before the current position (none at the
start), used for the leading word boundary. -/
def findYear (prev : Option Char) : List Char → Option Nat
  | [] => none
  | a :: rest =>
      let boundaryOk := match prev with
        | none => true
        | some p => !isWordChar p
      match (if boundaryOk then yearAt (a :: rest) else none) with
      | some n => some n
      | none => findYear (some a) rest

/-- `WineSearcherParser.parseVintage`: absent text defaults to the
current year; otherwise the first `\b(19|20)\d{2}\b` match is used,
defaulting to the current year when there is none; the chosen year
then passes through `Vintage.create`. -/
def parseVintage (currentYear : Int) (text : Option String) :
    Except String Vintage :=
  match text with
  | none => Vintage.create currentYear currentYear
  | some t =>
      match findYear none t.data with
      | some n => Vintage.create currentYear (n : Int)
      | none => Vintage.create currentYear currentYear

/-- `WineSearcherParser.parseScore`: the first `\d+(\.\d+)?` token of
the text, through `Score.create`; no token is an error. -/
def parseScore (text : String) : Except String Score :=
  match firstNumToken text.data with
  | some tok => Score.create (ratOfToken tok)
  | none => .error ("Invalid score format: " ++ text)

/-- `WineSearcherParser.parseReviewCount`: the first `\d+` token,
defaulting to 0 when the text is absent or has no digits. -/
def parseReviewCount (text : Option String) : Int :=
  match text with
  | none => 0
  | some t =>
      match firstDigitRun t.data with
      | some ds => (natOfDigits ds : Int)
      | none => 0

/-- `WineSearcherParser.parsePrice`: currency symbols (`$`, `€`, `£`)
and commas are removed, then the first `\d+(\.\d+)?` token is parsed;
no token throws. -/
def parsePrice (text : String) : Except String ℚ :=
  let cleaned := text.data.filter
    (fun c => !(c = '$' || c = '€' || c = '£' || c = ','))
  match firstNumToken cleaned with
  | some tok => .ok (ratOfToken tok)
  | none => .error ("Invalid price format: " ++ text)

/-- `WineSearcherParser.extractWine`: the name is mandatory (absence
throws), the vintage is parsed from its text, region/winery/variety
default to their `Unknown ...` literals, and the values pass through
the `WineName` and `Wine` constructors. -/
def extractWine (currentYear : Int) (doc : Doc) : Except String Wine :=
  match doc.nameText with
  | none => .error "Wine name not found"
  | some name => do
      let vintage ← parseVintage currentYear doc.vintageText
      let region := doc.regionText.getD "Unknown Region"
      let winery := doc.wineryText.getD "Unknown Winery"
      let variety := doc.varietyText.getD "Unknown Variety"
      let n ← WineName.create name
      Wine.create n region winery variety vintage

/-- The body of the per-item callback of
`WineSearcherParser.extractRatings`: the item contributes a rating
when source and score text are both present and neither the score
parse nor the `Rating` constructor throws; any failure yields nothing
(the `catch` logs and skips). -/
def ratingOfItem (it : RatingItem) : Option Rating :=
  match it.source, it.scoreText with
  | some src, some st =>
      (match (do
          let score ← parseScore st
          let reviewCount := parseReviewCount it.reviewCountText
          Rating.create src score it.critic reviewCount :
            Except String Rating) with
       | .ok r => some r
       | .error _ => none)
  | _, _ => none

/-- `WineSearcherParser.extractRatings`: iterate the item nodes in
document order, pushing each successfully extracted rating and
skipping (with a logged warning) any item whose extraction throws. -/
def extractRatings (items : List RatingItem) : List Rating :=
  items.foldl
    (fun acc it =>
      match ratingOfItem it with
      | some r => acc ++ [r]
      | none => acc)
    []

/-- `WineSearcherParser.extractPrice`: when the average text or the
currency text is absent the result is null; otherwise the average is
parsed (a throw here propagates) and the `Price` constructor runs. -/
def extractPrice (pp : PriceParts) : Except String (Option Price) :=
  match pp.averageText, pp.currencyText with
  | some avgText, some currency => do
      let average ← parsePrice avgText
      let p ← Price.create average currency pp.priceRangeText
      pure (some p)
  | _, _ => .ok none

/-- The parse result bag (`WineData` of `parser.port.ts`); the
`crawledAt` timestamp is outside the embedding. -/
structure WineData where
  wine : Wine
  ratings : List Rating
  price : Option Price
  sourceUrl : String
  deriving DecidableEq, Repr

/-- `WineSearcherParser.parse`: extract wine, ratings and price, and
wrap any uncaught error into a `ParsingError` carrying the source URL
and the original message. -/
def parseDoc (currentYear : Int) (doc : Doc) (sourceUrl : String) :
    Except CrawlError WineData :=
  match (do
      let wine ← extractWine currentYear doc
      let ratings := extractRatings doc.ratingItems
      let price ← extractPrice doc.priceParts
      pure (wine, ratings, price) : Except String (Wine × List Rating × Option Price)) with
  | .ok (w, rs, p) => .ok ⟨w, rs, p, sourceUrl⟩
  | .error msg =>
      .error (.parsingError
        ("Failed to parse HTML from " ++ sourceUrl ++ ": " ++ msg) sourceUrl)

/-! ## Orchestration (`SearchWineUseCase`) -/

/-- One `replace(/\s+/g, '+')` pass: each maximal whitespace run
becomes a single `+`. `inRun` records whether the previous character
was part of a run already replaced. -/
def collapseWsAux (inRun : Bool) : List Char → List Char
  | [] => []
  | a :: rest =>
      if isJsWs a then
        if inRun then collapseWsAux true rest
        else '+' :: collapseWsAux true rest
      else a :: collapseWsAux false rest

/-- `replace(/\s+/g, '+')`. -/
def collapseWs (l : List Char) : List Char :=
  collapseWsAux false l

/-- Is the character kept by `replace(/[^a-z0-9+]/g, '')`? -/
def isUrlKeep (c : Char) : Bool :=
  ('a' ≤ c && c ≤ 'z') || ('0' ≤ c && c ≤ '9') || c = '+'

/-- The query normalisation of
`SearchWineUseCase.constructWineSearcherUrl`: lower-case, collapse
whitespace runs to `+`, delete everything outside `[a-z0-9+]`. -/
def normalizeQuery (s : String) : String :=
  ⟨(collapseWs (jsToLower s).data).filter isUrlKeep⟩

/-- `SearchWineUseCase.constructWineSearcherUrl`: winery, variety,
vintage (as text) and region joined with spaces, normalised, and
appended to the fixed find-prefix. -/
def constructWineSearcherUrl (winery variety : String) (vintage : Int)
    (region : String) : String :=
  "https://www.wine-searcher.com/find/" ++
    normalizeQuery (winery ++ " " ++ variety ++ " " ++ toString vintage ++ " " ++ region)

/-! ## Escaping lemmas -/

theorem rep_append (c : Char) (x y : List Char) :
    rep c (x ++ y) = rep c x ++ rep c y := by
  induction x with
  | nil => simp [rep]
  | cons a l ih => by_cases h : a = c <;> simp [rep, h, ih]

theorem escapeData_single (a : Char) : escapeData [a] = escChar a := by
  by_cases h1 : a = '\\'
  · subst h1; decide
  by_cases h2 : a = '"'
  · subst h2; decide
  by_cases h3 : a = '$'
  · subst h3; decide
  by_cases h4 : a = backtick
  · subst h4; decide
  by_cases h5 : a = ';'
  · subst h5; decide
  by_cases h6 : a = '&'
  · subst h6; decide
  by_cases h7 : a = '|'
  · subst h7; decide
  by_cases h8 : a = '>'
  · subst h8; decide
  by_cases h9 : a = '<'
  · subst h9; decide
  simp [escapeData, rep, escChar, isMeta, h1, h2, h3, h4, h5, h6, h7, h8, h9]

theorem escapeData_eq_escSpec (l : List Char) : escapeData l = escSpec l := by
  induction l with
  | nil => decide
  | cons a l ih =>
      have h1 : escapeData ([a] ++ l) = escapeData [a] ++ escapeData l := by
        simp only [escapeData, rep_append]
      have h2 : escapeData (a :: l) = escapeData [a] ++ escapeData l := h1
      rw [h2, escapeData_single, ih]
      rfl

theorem not_meta_ne_backslash {a : Char} (h : isMeta a = false) : a ≠ '\\' := by
  rintro rfl
  simp [isMeta] at h

theorem noUnescaped_cons (a : Char) (t : List Char) (h : isMeta a = false) :
    noUnescaped (a :: t) = noUnescaped t := by
  have ha : a ≠ '\\' := not_meta_ne_backslash h
  cases t with
  | nil => simp [noUnescaped, h]
  | cons b rest => simp [noUnescaped, ha, h]

theorem noUnescaped_escSpec (l : List Char) : noUnescaped (escSpec l) = true := by
  induction l with
  | nil => decide
  | cons a l ih =>
      by_cases h : isMeta a
      · have h2 : escSpec (a :: l) = '\\' :: a :: escSpec l := by
          simp [escSpec, escChar, h]
        rw [h2]
        simp [noUnescaped, ih]
      · have h2 : escSpec (a :: l) = a :: escSpec l := by
          simp [escSpec, escChar, h]
        rw [h2, noUnescaped_cons a _ (by simpa using h)]
        exact ih

theorem escSpec_eq_nil (l : List Char) : escSpec l = [] ↔ l = [] := by
  cases l with
  | nil => simp [escSpec]
  | cons a l => by_cases h : isMeta a <;> simp [escSpec, escChar, h]

theorem unescape_escSpec (l : List Char) : unescapeShell (escSpec l) = l := by
  induction l with
  | nil => decide
  | cons a l ih =>
      by_cases h : isMeta a
      · have h2 : escSpec (a :: l) = '\\' :: a :: escSpec l := by
          simp [escSpec, escChar, h]
        rw [h2]
        simp [unescapeShell, ih]
      · have ha : a ≠ '\\' := not_meta_ne_backslash (by simpa using h)
        have h2 : escSpec (a :: l) = a :: escSpec l := by
          simp [escSpec, escChar, h]
        rw [h2]
        cases hE : escSpec l with
        | nil =>
            have hl : l = [] := (escSpec_eq_nil l).mp hE
            subst hl
            simp [unescapeShell]
        | cons b rest =>
            simp only [unescapeShell]
            rw [if_neg ha, ← hE, ih]

/-- **C1**: for every input string to the fetch executor's shell
escaping, the escaped output has no unescaped occurrence of the nine
metacharacters — read left to right, every metacharacter is a
backslash escaping the next character or is itself escaped — and
because the backslash substitution runs first, no escaping backslash
is re-escaped: stripping one escaping backslash per character recovers
the input exactly. -/
theorem escapeShellArg_neutralizes_metachars (s : String) :
    noUnescaped (escapeShellArg s).data = true ∧
    unescapeShell (escapeShellArg s).data = s.data := by
  have h : (escapeShellArg s).data = escSpec s.data := escapeData_eq_escSpec s.data
  rw [h]
  exact ⟨noUnescaped_escSpec s.data, unescape_escSpec s.data⟩

theorem escSpec_eq_flatMap (l : List Char) : escSpec l = l.flatMap escChar := by
  induction l with
  | nil => rfl
  | cons a l ih => simp [escSpec, ih]

theorem foldl_headers_data (l : List (String × String)) (init : String) :
    (l.foldl
      (fun cmd kv =>
        cmd ++ " -H \"" ++ escapeShellArg kv.1 ++ ": " ++ escapeShellArg kv.2 ++ "\"")
      init).data =
    init.data ++ (l.map (fun kv =>
      (" -H \"" ++ escapeShellArg kv.1 ++ ": " ++ escapeShellArg kv.2 ++ "\"").data)).flatten := by
  induction l generalizing init with
  | nil => simp
  | cons x l ih => simp [List.foldl, ih, String.data_append]

/-- **C2**: `escapeShellArg` rewrites exactly the nine metacharacters,
prefixing each with a backslash, and leaves every other character
unchanged; and `buildCurlCommand` splices the escaped URL in bare
(no surrounding quotes) while each header pair and the user agent are
spliced inside double quotes. -/
theorem escapeShellArg_char_by_char (s url browser : String) (timeout : Nat)
    (headers : List (String × String)) (ua : Option String) :
    (escapeShellArg s).data =
      s.data.flatMap (fun a => if isMeta a then ['\\', a] else [a]) ∧
    (buildCurlCommand url browser timeout headers ua).data =
      ("curl_" ++ browser ++ " -s -L ").data ++ (escapeShellArg url).data ++
      (" --max-time " ++ toString ((timeout + 999) / 1000)).data ++
      (headers.map (fun kv =>
        (" -H \"" ++ escapeShellArg kv.1 ++ ": " ++ escapeShellArg kv.2 ++ "\"").data)).flatten ++
      (match ua with
       | some u => (" -A \"" ++ escapeShellArg u ++ "\"").data
       | none => []) := by
  constructor
  · have h : (escapeShellArg s).data = escSpec s.data := escapeData_eq_escSpec s.data
    rw [h, escSpec_eq_flatMap]
    rfl
  · cases ua <;>
      · simp only [buildCurlCommand, String.data_append]
        rw [foldl_headers_data]
        simp [String.data_append]

/-! ## Fetch outcome classification -/

/-- **C3**: the fetch outcome is classified exactly as the claim
states: successful process with empty/whitespace-only stdout is a
`NetworkError` naming the url; a process error whose message or code
indicates a timeout is a `TimeoutError` carrying url and timeoutMs;
any other process error is a `NetworkError` carrying url and the
message; non-empty (after trim) stdout is returned unchanged. -/
theorem fetch_outcome_classification (url : String) (t : Nat) :
    (∀ out err, jsTrim out = "" →
      fetchClassify url t (.ok out err) =
        .error (.networkError ("Empty response from URL: " ++ url) url)) ∧
    (∀ out err, jsTrim out ≠ "" →
      fetchClassify url t (.ok out err) = .ok out) ∧
    (∀ msg code,
      (containsSub msg "ETIMEDOUT" || containsSub msg "timeout" ||
        code = some "ETIMEDOUT") = true →
      fetchClassify url t (.err msg code) =
        .error (.timeoutError
          ("Request to " ++ url ++ " timed out after " ++ toString t ++ "ms") url t)) ∧
    (∀ msg code,
      (containsSub msg "ETIMEDOUT" || containsSub msg "timeout" ||
        code = some "ETIMEDOUT") = false →
      fetchClassify url t (.err msg code) =
        .error (.networkError ("Failed to fetch URL " ++ url ++ ": " ++ msg) url)) := by
  refine ⟨fun out err h => ?_, fun out err h => ?_, fun msg code h => ?_, fun msg code h => ?_⟩
  · have : (jsTrim out).data.length = 0 := by rw [h]; rfl
    simp [fetchClassify, this]
  · have hne : ¬((jsTrim out).data.length = 0) := by
      intro h0
      exact h (congrArg String.mk (List.length_eq_zero.mp h0))
    simp only [fetchClassify, if_neg hne]
  · simp only [fetchClassify, h]
    rfl
  · simp only [fetchClassify, h]
    rfl

/-- Closed witness for the four branches of
`fetch_outcome_classification` at concrete inputs. -/
theorem fetch_outcome_classification_witness :
    fetchClassify "u" 7000 (.ok "  " "") =
      .error (.networkError "Empty response from URL: u" "u") ∧
    fetchClassify "u" 7000 (.ok "<html>" "") = .ok "<html>" ∧
    fetchClassify "u" 7000 (.err "Command timeout" (some "ETIMEDOUT")) =
      .error (.timeoutError "Request to u timed out after 7000ms" "u" 7000) ∧
    fetchClassify "u" 7000 (.err "Connection failed" none) =
      .error (.networkError "Failed to fetch URL u: Connection failed" "u") := by
  refine ⟨?_, ?_, ?_, ?_⟩
  · exact (fetch_outcome_classification "u" 7000).1 "  " "" (by decide)
  · exact (fetch_outcome_classification "u" 7000).2.1 "<html>" "" (by decide)
  · exact (fetch_outcome_classification "u" 7000).2.2.1 "Command timeout"
      (some "ETIMEDOUT") (by decide)
  · exact (fetch_outcome_classification "u" 7000).2.2.2 "Connection failed" none (by decide)

/-! ## URL construction -/

/-- **C7**: the search URL is built deterministically from the query
parts; every character of the normalised query is in `[a-z0-9+]`, and
the Opus One example produces exactly the URL the claim states. -/
theorem constructWineSearcherUrl_example (s : String) :
    (normalizeQuery s).data.all isUrlKeep = true ∧
    constructWineSearcherUrl "Opus One" "Cabernet Sauvignon" 2018 "Napa Valley" =
      "https://www.wine-searcher.com/find/opus+one+cabernet+sauvignon+2018+napa+valley" := by
  constructor
  · apply List.all_eq_true.mpr
    intro c hc
    exact (List.mem_filter.mp hc).2
  · decide

/-! ## Robert Parker predicate -/

/-- **C10**: `isRobertParker` is true exactly when the source or the
critic (null read as the empty string) case-insensitively contains one
of `parker`, `rp`, `robert parker`; with the claim's three examples. -/
theorem isRobertParker_spec (r : Rating) :
    (r.isRobertParker = true ↔
      ∃ k ∈ ["parker", "rp", "robert parker"],
        (containsSub (jsToLower (r.critic.getD "")) k = true ∨
         containsSub (jsToLower r.source) k = true)) ∧
    Rating.isRobertParker ⟨"Wine Advocate", ⟨95⟩, some "Robert Parker", 10⟩ = true ∧
    Rating.isRobertParker ⟨"RP Score", ⟨95⟩, none, 10⟩ = true ∧
    Rating.isRobertParker ⟨"Wine Spectator", ⟨95⟩, some "James Suckling", 10⟩ = false := by
  refine ⟨?_, by decide, by decide, by decide⟩
  simp [Rating.isRobertParker, List.any_eq_true]

/-! ## Ratings extraction -/

theorem extractRatings_go (items : List RatingItem) (acc : List Rating) :
    items.foldl
      (fun acc it =>
        match ratingOfItem it with
        | some r => acc ++ [r]
        | none => acc)
      acc = acc ++ items.filterMap ratingOfItem := by
  induction items generalizing acc with
  | nil => simp
  | cons it items ih =>
      cases h : ratingOfItem it <;> simp [List.foldl, h, ih, List.filterMap_cons]

/-- **C4**: ratings extraction is the per-item extraction folded over
the items in document order, keeping exactly the items whose
extraction succeeds (so one failing item is skipped while the rest
are still processed, and document order is preserved); an item is
kept only when source and score text are both present; the score is
the first numeric token of the score text passed through `Score`'s
range check; the review count defaults to 0 when its text is
absent. -/
theorem extractRatings_skip_and_continue (items : List RatingItem) :
    extractRatings items = items.filterMap ratingOfItem ∧
    (∀ it : RatingItem, it.source = none ∨ it.scoreText = none →
      ratingOfItem it = none) ∧
    (∀ (it : RatingItem) (src st : String),
      it.source = some src → it.scoreText = some st →
      ratingOfItem it =
        (match parseScore st with
         | .ok sc =>
             (match Rating.create src sc it.critic
                 (parseReviewCount it.reviewCountText) with
              | .ok r => some r
              | .error _ => none)
         | .error _ => none)) ∧
    (∀ st : String, firstNumToken st.data = none →
      parseScore st = .error ("Invalid score format: " ++ st)) ∧
    (∀ (st : String) (tok : List Char), firstNumToken st.data = some tok →
      parseScore st = Score.create (ratOfToken tok)) ∧
    parseReviewCount none = 0 := by
  refine ⟨?_, ?_, ?_, ?_, ?_, rfl⟩
  · simpa using extractRatings_go items []
  · rintro ⟨src?, st?, cr, rc⟩ h
    rcases h with h | h
    · simp only at h
      subst h
      cases st? <;> rfl
    · simp only at h
      subst h
      cases src? <;> rfl
  · rintro ⟨src?, st?, cr, rc⟩ src st h1 h2
    simp only at h1 h2
    subst h1
    subst h2
    cases hps : parseScore st <;>
      simp [ratingOfItem, hps, Bind.bind, Except.bind]
  · intro st h
    simp only [parseScore, h]
  · intro st tok h
    simp only [parseScore, h]

/-- Closed witness for `extractRatings_skip_and_continue`: the
hypothesised conjuncts applied at concrete items. -/
theorem extractRatings_skip_and_continue_witness :
    ratingOfItem ⟨none, some "95", none, none⟩ = none ∧
    parseScore "abc" = .error "Invalid score format: abc" ∧
    parseScore "95 pts" = Score.create (ratOfToken "95".data) ∧
    ratingOfItem ⟨some "WS", some "95 pts", none, some "12 reviews"⟩ =
      (match parseScore "95 pts" with
       | .ok sc =>
           (match Rating.create "WS" sc none (parseReviewCount (some "12 reviews")) with
            | .ok r => some r
            | .error _ => none)
       | .error _ => none) := by
  refine ⟨?_, ?_, ?_, ?_⟩
  · exact (extractRatings_skip_and_continue []).2.1 _ (Or.inl rfl)
  · exact (extractRatings_skip_and_continue []).2.2.2.1 "abc" (by decide)
  · exact (extractRatings_skip_and_continue []).2.2.2.2.1 "95 pts" "95".data (by decide)
  · exact (extractRatings_skip_and_continue []).2.2.1 _ "WS" "95 pts" rfl rfl

/-! ## Price asymmetry and error wrapping -/

/-- **C5**: if the average text or the currency text is absent the
price parse yields null and a successful document parse carries
`price = none`; if both are present but the cleaned average text has
no numeric token, the whole document parse fails as a
`ParsingError`. -/
theorem price_extraction_asymmetry (currentYear : Int) (doc : Doc) (url : String) :
    (doc.priceParts.averageText = none ∨ doc.priceParts.currencyText = none →
      extractPrice doc.priceParts = .ok none ∧
      (∀ result, parseDoc currentYear doc url = .ok result → result.price = none)) ∧
    (∀ avgText currency,
      doc.priceParts.averageText = some avgText →
      doc.priceParts.currencyText = some currency →
      firstNumToken (avgText.data.filter
        (fun c => !(c = '$' || c = '€' || c = '£' || c = ','))) = none →
      ∃ m, parseDoc currentYear doc url = .error (.parsingError m url)) := by
  constructor
  · intro h
    have hep : extractPrice doc.priceParts = .ok none := by
      rcases h with h | h
      · cases hc : doc.priceParts.currencyText <;> simp [extractPrice, h, hc]
      · cases ha : doc.priceParts.averageText <;> simp [extractPrice, h, ha]
    refine ⟨hep, ?_⟩
    intro result hres
    rcases hw : extractWine currentYear doc with e | w <;>
      simp [parseDoc, hw, hep, Bind.bind, Except.bind, Pure.pure, Except.pure] at hres
    rw [← hres]
  · intro avgText currency h1 h2 h3
    have hpp : parsePrice avgText = .error ("Invalid price format: " ++ avgText) := by
      simp only [parsePrice]
      rw [h3]
    have hpe : extractPrice doc.priceParts =
        .error ("Invalid price format: " ++ avgText) := by
      simp [extractPrice, h1, h2, hpp, Bind.bind, Except.bind]
    rcases hw : extractWine currentYear doc with e | w
    · exact ⟨"Failed to parse HTML from " ++ url ++ ": " ++ e,
        by simp [parseDoc, hw, Bind.bind, Except.bind]⟩
    · exact ⟨"Failed to parse HTML from " ++ url ++ ": " ++
          ("Invalid price format: " ++ avgText),
        by simp [parseDoc, hw, hpe, Bind.bind, Except.bind]⟩

/-- Closed witness for `price_extraction_asymmetry` at concrete
documents: a document with no average-price text parses with a null
price, and one whose price text has no numeric token fails the whole
parse as a `ParsingError`. -/
theorem price_extraction_asymmetry_witness :
    extractPrice ⟨none, some "USD", none⟩ = .ok none ∧
    (⟨⟨⟨"Opus"⟩, "Unknown Region", "Unknown Winery", "Unknown Variety", ⟨2018⟩⟩,
        [], none, "u"⟩ : WineData).price = none ∧
    (∃ m, parseDoc 2025
        ⟨some "Opus", some "2018", none, none, none, [],
          ⟨some "no digits", some "USD", none⟩⟩ "u" =
      .error (.parsingError m "u")) := by
  refine ⟨?_, ?_, ?_⟩
  · exact ((price_extraction_asymmetry 2025
      ⟨some "Opus", some "2018", none, none, none, [], ⟨none, some "USD", none⟩⟩
      "u").1 (Or.inl rfl)).1
  · exact ((price_extraction_asymmetry 2025
      ⟨some "Opus", some "2018", none, none, none, [], ⟨none, some "USD", none⟩⟩
      "u").1 (Or.inl rfl)).2
      ⟨⟨⟨"Opus"⟩, "Unknown Region", "Unknown Winery", "Unknown Variety", ⟨2018⟩⟩,
        [], none, "u"⟩ (by rfl)
  · exact (price_extraction_asymmetry 2025
      ⟨some "Opus", some "2018", none, none, none, [],
        ⟨some "no digits", some "USD", none⟩⟩
      "u").2 "no digits" "USD" rfl rfl (by decide)

/-- **C6**: a document in which no wine-name locator yields text fails
as a `ParsingError` carrying the source URL, and every error the
parse operation returns is a `ParsingError` wrapping the source URL
and the original message — never the original error. -/
theorem parse_wraps_errors (currentYear : Int) (doc : Doc) (url : String) :
    (doc.nameText = none →
      parseDoc currentYear doc url =
        .error (.parsingError
          ("Failed to parse HTML from " ++ url ++ ": " ++ "Wine name not found") url)) ∧
    (∀ e, parseDoc currentYear doc url = .error e →
      ∃ m, e = .parsingError ("Failed to parse HTML from " ++ url ++ ": " ++ m) url) := by
  constructor
  · intro h
    have hw : extractWine currentYear doc = .error "Wine name not found" := by
      simp [extractWine, h]
    simp [parseDoc, hw, Bind.bind, Except.bind]
  · intro e he
    unfold parseDoc at he
    split at he
    · exact absurd he (by simp)
    · rename_i msg heq
      injection he with h2
      exact ⟨msg, h2.symm⟩

/-- Closed witness for `parse_wraps_errors`: a nameless document fails
with the exact `ParsingError`, and that error is of the wrapped
form. -/
theorem parse_wraps_errors_witness :
    parseDoc 2025 ⟨none, none, none, none, none, [], ⟨none, none, none⟩⟩ "u" =
      .error (.parsingError "Failed to parse HTML from u: Wine name not found" "u") ∧
    (∃ m, (CrawlError.parsingError "Failed to parse HTML from u: Wine name not found" "u") =
      .parsingError ("Failed to parse HTML from " ++ "u" ++ ": " ++ m) "u") := by
  constructor
  · exact (parse_wraps_errors 2025
      ⟨none, none, none, none, none, [], ⟨none, none, none⟩⟩ "u").1 rfl
  · exact (parse_wraps_errors 2025
      ⟨none, none, none, none, none, [], ⟨none, none, none⟩⟩ "u").2 _ ((parse_wraps_errors 2025
      ⟨none, none, none, none, none, [], ⟨none, none, none⟩⟩ "u").1 rfl)

/-! ## Vintage extraction -/

/-- **C8** counterexample: `"52018"` contains the 4-digit substring
`2018`, which matches `20xx`, yet the code's `\b(19|20)\d{2}\b` regex
rejects it (the `2` is preceded by the word character `5`), so
extraction falls back to the current year instead of taking 2018. -/
theorem parseVintage_substring_counterexample :
    containsSub "52018" "2018" = true ∧
    parseVintage 2025 (some "52018") = .ok ⟨2025⟩ ∧
    Vintage.mk 2025 ≠ Vintage.mk 2018 := by
  refine ⟨by decide, by rfl, by decide⟩

theorem yearAt_bound (l : List Char) (n : Nat) (h : yearAt l = some n) :
    1900 ≤ n ∧ n ≤ 2099 := by
  match l with
  | [] => simp [yearAt] at h
  | [_] => simp [yearAt] at h
  | [_, _] => simp [yearAt] at h
  | [_, _, _] => simp [yearAt] at h
  | a :: b :: c :: d :: rest =>
      simp only [yearAt] at h
      split at h
      · rename_i hcond
        injection h with hn
        subst hn
        simp only [Bool.and_eq_true, Bool.or_eq_true, decide_eq_true_eq] at hcond
        obtain ⟨⟨⟨hx, hc⟩, hd⟩, -⟩ := hcond
        simp [Char.isDigit] at hc hd
        have hc1 : 48 ≤ c.toNat := hc.1
        have hc2 : c.toNat ≤ 57 := hc.2
        have hd1 : 48 ≤ d.toNat := hd.1
        have hd2 : d.toNat ≤ 57 := hd.2
        rcases hx with ⟨ha, hb⟩ | ⟨ha, hb⟩ <;> subst ha <;> subst hb <;>
          · simp only [natOfDigits, List.foldl,
              show ('1' : Char).toNat = 49 from rfl,
              show ('9' : Char).toNat = 57 from rfl,
              show ('2' : Char).toNat = 50 from rfl,
              show ('0' : Char).toNat = 48 from rfl]
            omega
      · exact absurd h (by simp)

theorem findYear_bound (l : List Char) :
    ∀ (prev : Option Char) (n : Nat),
      findYear prev l = some n → 1900 ≤ n ∧ n ≤ 2099 := by
  induction l with
  | nil => intro prev n h; simp [findYear] at h
  | cons a rest ih =>
      intro prev n h
      simp only [findYear] at h
      split at h
      · rename_i n' heq
        injection h with hn
        subst hn
        split at heq
        · exact yearAt_bound _ _ heq
        · exact absurd heq (by simp)
      · exact ih (some a) n h

/-- **C8 (amended)**: vintage extraction takes the first 4-digit
substring matching 19xx or 20xx that is delimited by word boundaries
(not immediately preceded or followed by a letter, digit or
underscore); if the text is absent or has no such delimited match it
defaults to the current calendar year; any matched year lies in
[1900, 2099] and is still passed through Vintage's validator, so a
matched year outside [1900, currentYear+5] (e.g. 2099) fails
construction rather than being clamped, while the default
current-year value always validates. -/
theorem parseVintage_boundary_spec (currentYear : Int) (h1900 : 1900 ≤ currentYear) :
    parseVintage currentYear none = .ok ⟨currentYear⟩ ∧
    (∀ s : String, findYear none s.data = none →
      parseVintage currentYear (some s) = .ok ⟨currentYear⟩) ∧
    (∀ (s : String) (n : Nat), findYear none s.data = some n →
      parseVintage currentYear (some s) = Vintage.create currentYear (n : Int)) ∧
    (∀ (l : List Char) (n : Nat), findYear none l = some n →
      1900 ≤ n ∧ n ≤ 2099) ∧
    parseVintage 2025 (some "wine 2018 bottle") = .ok ⟨2018⟩ ∧
    parseVintage 2025 (some "cuvee 2099") =
      .error "Vintage must be between 1900 and 2030, got: 2099" := by
  have hc1 : ¬(currentYear < 1900) := by omega
  have hc2 : ¬(currentYear + 5 < currentYear) := by omega
  refine ⟨?_, ?_, ?_, ?_, by rfl, by rfl⟩
  · simp [parseVintage, Vintage.create, hc1, hc2]
  · intro s h
    simp [parseVintage, Vintage.create, h, hc1, hc2]
  · intro s n h
    simp [parseVintage, h]
  · exact fun l n h => findYear_bound l none n h

/-- Closed witness for `parseVintage_boundary_spec` at the concrete
current year 2025 and concrete texts. -/
theorem parseVintage_boundary_spec_witness :
    parseVintage 2025 none = .ok ⟨2025⟩ ∧
    parseVintage 2025 (some "young wine") = .ok ⟨2025⟩ ∧
    (1900 ≤ 2018 ∧ 2018 ≤ 2099) := by
  refine ⟨(parseVintage_boundary_spec 2025 (by decide)).1,
    (parseVintage_boundary_spec 2025 (by decide)).2.1 "young wine" (by decide),
    (parseVintage_boundary_spec 2025 (by decide)).2.2.2.1
      "wine 2018 bottle".data 2018 (by decide)⟩

/-! ## Wine entity roundtrip -/

/-- **C9**: for trimmed non-empty strings of length at most 100 and an
integer vintage in [1900, currentYear+5], the value-object and entity
constructors all succeed and every field — and the `toJSON`
projection — reads back the input unchanged. -/
theorem wine_entity_roundtrip (currentYear vintage : Int)
    (name region winery variety : String)
    (hname : jsTrim name = name) (hname0 : name.data.length ≠ 0)
    (hname100 : name.data.length ≤ 100)
    (hreg : jsTrim region = region) (hreg0 : region.data.length ≠ 0)
    (hreg100 : region.data.length ≤ 100)
    (hwin : jsTrim winery = winery) (hwin0 : winery.data.length ≠ 0)
    (hwin100 : winery.data.length ≤ 100)
    (hvar : jsTrim variety = variety) (hvar0 : variety.data.length ≠ 0)
    (hvar100 : variety.data.length ≤ 100)
    (hv1 : 1900 ≤ vintage) (hv2 : vintage ≤ currentYear + 5) :
    (do
      let n ← WineName.create name
      let v ← Vintage.create currentYear vintage
      Wine.create n region winery variety v) =
      .ok (⟨⟨name⟩, region, winery, variety, ⟨vintage⟩⟩ : Wine) ∧
    (Wine.mk ⟨name⟩ region winery variety ⟨vintage⟩).name.value = name ∧
    (Wine.mk ⟨name⟩ region winery variety ⟨vintage⟩).region = region ∧
    (Wine.mk ⟨name⟩ region winery variety ⟨vintage⟩).winery = winery ∧
    (Wine.mk ⟨name⟩ region winery variety ⟨vintage⟩).variety = variety ∧
    (Wine.mk ⟨name⟩ region winery variety ⟨vintage⟩).vintage.value = vintage ∧
    (Wine.mk ⟨name⟩ region winery variety ⟨vintage⟩).toJSON =
      ⟨name, region, winery, variety, vintage⟩ := by
  have h1 : ¬(vintage < 1900) := by omega
  have h2 : ¬(currentYear + 5 < vintage) := by omega
  have h3 : ¬(100 < name.data.length) := by omega
  have h4 : ¬(100 < region.data.length) := by omega
  have h5 : ¬(100 < winery.data.length) := by omega
  have h6 : ¬(100 < variety.data.length) := by omega
  have hname0' : ¬(name.length = 0) := hname0
  have hreg0' : ¬(region.length = 0) := hreg0
  have hwin0' : ¬(winery.length = 0) := hwin0
  have hvar0' : ¬(variety.length = 0) := hvar0
  have h3' : ¬(100 < name.length) := h3
  have h4' : ¬(100 < region.length) := h4
  have h5' : ¬(100 < winery.length) := h5
  have h6' : ¬(100 < variety.length) := h6
  refine ⟨?_, rfl, rfl, rfl, rfl, rfl, rfl⟩
  simp [WineName.create, Vintage.create, Wine.create, hname, hreg, hwin, hvar,
    hname0', hreg0', hwin0', hvar0', h1, h2, h3', h4', h5', h6',
    Bind.bind, Except.bind]

/-- Closed witness for `wine_entity_roundtrip` at the Opus One
inputs. -/
theorem wine_entity_roundtrip_witness :
    (do
      let n ← WineName.create "Opus One"
      let v ← Vintage.create 2025 2018
      Wine.create n "Napa Valley" "Opus One Winery" "Cabernet Sauvignon" v) =
      .ok (⟨⟨"Opus One"⟩, "Napa Valley", "Opus One Winery",
        "Cabernet Sauvignon", ⟨2018⟩⟩ : Wine) ∧
    (Wine.mk ⟨"Opus One"⟩ "Napa Valley" "Opus One Winery"
        "Cabernet Sauvignon" ⟨2018⟩).toJSON =
      ⟨"Opus One", "Napa Valley", "Opus One Winery", "Cabernet Sauvignon", 2018⟩ := by
  have h := wine_entity_roundtrip 2025 2018
    "Opus One" "Napa Valley" "Opus One Winery" "Cabernet Sauvignon"
    (by decide) (by decide) (by decide)
    (by decide) (by decide) (by decide)
    (by decide) (by decide) (by decide)
    (by decide) (by decide) (by decide)
    (by decide) (by decide)
  exact ⟨h.1, h.2.2.2.2.2.2⟩

end WineScope
